import Mathlib

/-!
Verification of the YouTube transcript tool (`src/youtube_transcript_app.py`)
against its natural-language specification.

The Python script is shallowly embedded: Python `str` values are modeled as
`List Char` (sequences of code points), fallible operations return `Except`,
and the external collaborators (the captions API, the Google translation
client, the `yt-dlp` subprocess, the filesystem, and the Whisper model) are
modeled as oracle functions collected in an `Env` record.  The relevant parts
of `urllib.parse` (`urlparse`, `parse_qs`) are modeled from CPython's
semantics since the script's behavior depends on them.
-/

deriving instance DecidableEq for Except

namespace YTApp

/-- Python `str` is modeled as a list of code points. -/
abbrev Str := List Char

/-! ## `split_text` (src/youtube_transcript_app.py lines 47-49)

`return [text[i:i + max_length] for i in range(0, len(text), max_length)]`

For `n > 0` the comprehension takes successive slices of width `n`; we render
it as the equivalent structural recursion (each loop iteration emits
`text[i:i+n]`, i.e. `take n` of the remaining suffix, and advances by `n`).
`range` with step `0` raises `ValueError` in Python; that case is outside the
claims (which require positive `n`) and is rendered as `[]` here. -/
def split_text (text : Str) (n : Nat) : List Str :=
  if h : text.length = 0 ∨ n = 0 then []
  else text.take n :: split_text (text.drop n) n
termination_by text.length
decreasing_by
  push_neg at h
  simp only [List.length_drop]
  omega

theorem split_text_eq_nil_iff (s : Str) (n : Nat) :
    split_text s n = [] ↔ s.length = 0 ∨ n = 0 := by
  rw [split_text]
  split <;> simp_all

theorem split_text_cons (s : Str) (n : Nat) (hc : ¬(s.length = 0 ∨ n = 0)) :
    split_text s n = s.take n :: split_text (s.drop n) n := by
  rw [split_text]
  simp only [dite_eq_ite, ite_eq_right_iff]
  push_neg at hc
  intro hor
  rcases hor with hs | hn
  · exact absurd (by simp [hs]) hc.1
  · exact absurd hn hc.2

theorem split_text_join (s : Str) (n : Nat) :
    0 < n → (split_text s n).flatten = s := by
  induction s, n using split_text.induct with
  | case1 s n hc =>
    intro h
    have hs : s = [] := by
      rcases hc with hc | hc
      · exact List.length_eq_zero.mp hc
      · omega
    rw [split_text]
    simp [hs]
  | case2 s n hc ih =>
    intro h
    rw [split_text_cons s n hc]
    simp only [List.flatten_cons]
    rw [ih h]
    exact List.take_append_drop n s

theorem split_text_chunk_len (s : Str) (n : Nat) :
    0 < n → ∀ c ∈ (split_text s n).dropLast, c.length = n := by
  induction s, n using split_text.induct with
  | case1 s n hc =>
    intro h c hmem
    have hor : s = [] ∨ n = 0 := by
      rcases hc with hc | hc
      · exact Or.inl (List.length_eq_zero.mp hc)
      · exact Or.inr hc
    rw [split_text] at hmem
    simp [hor] at hmem
  | case2 s n hc ih =>
    intro h c hmem
    rw [split_text_cons s n hc] at hmem
    push_neg at hc
    by_cases hrest : split_text (s.drop n) n = []
    · simp [hrest] at hmem
    · rcases List.exists_cons_of_ne_nil hrest with ⟨b, bs, hb⟩
      rw [hb, List.dropLast_cons₂] at hmem
      rcases List.mem_cons.mp hmem with hco | hco
      · subst hco
        have hne := hrest
        simp only [ne_eq, split_text_eq_nil_iff] at hne
        push_neg at hne
        simp only [List.length_drop] at hne
        simp [List.length_take]
        omega
      · rw [← hb] at hco
        exact ih h c hco

/-- Claim C1: for every string `s` and every positive chunk size `n`,
concatenating the list returned by `split_text(s, n)` yields exactly `s`, and
every chunk in that list except possibly the last has length exactly `n`. -/
theorem claim_C1 (s : Str) (n : Nat) (h : 0 < n) :
    (split_text s n).flatten = s ∧
    ∀ c ∈ (split_text s n).dropLast, c.length = n :=
  ⟨split_text_join s n h, split_text_chunk_len s n h⟩

theorem claim_C1_witness :
    (split_text "hello world".toList 4).flatten = "hello world".toList ∧
    ∀ c ∈ (split_text "hello world".toList 4).dropLast, c.length = 4 :=
  claim_C1 "hello world".toList 4 (by decide)

/-! ## `urllib.parse` model

`extract_video_id` (lines 55-63) relies on CPython's `urlparse` and
`parse_qs`.  These library functions are modeled below from CPython's
`urllib/parse.py` semantics, restricted to the fragment the claims range
over: ASCII text without bracketed (IPv6) hosts.  Deviations from CPython,
each noted where it occurs: `_checknetloc`'s NFKC check on non-ASCII netlocs
is omitted; bracketed netlocs are uniformly mapped to `ValueError` (CPython
validates the bracketed host and accepts valid IPv6 addresses); `unquote`
decodes each `%XX` escape as a single code point (CPython additionally
UTF-8-decodes the resulting byte string, which differs for bytes ≥ 0x80). -/

/-- Python exceptions that the modeled fragment can raise. -/
inductive PyExn
  | valueError
  | keyError
deriving DecidableEq

/-- Value of a hexadecimal digit character, as accepted by `unquote`'s
`_hextobyte` table (both cases). -/
def hexVal (c : Char) : Option Nat :=
  if '0' ≤ c ∧ c ≤ '9' then some (c.toNat - '0'.toNat)
  else if 'a' ≤ c ∧ c ≤ 'f' then some (c.toNat - 'a'.toNat + 10)
  else if 'A' ≤ c ∧ c ≤ 'F' then some (c.toNat - 'A'.toNat + 10)
  else none

/-- `urllib.parse.unquote`: each `%XX` escape with two hex digits becomes the
byte `0xXX` (modeled as a single code point; see the section comment); a `%`
not followed by two hex digits is kept literally, exactly as CPython keeps
`b'%' + item` on a `_hextobyte` lookup failure. -/
def unquote : Str → Str
  | [] => []
  | '%' :: a :: b :: rest2 =>
    match hexVal a, hexVal b with
    | some ha, some hb => Char.ofNat (16 * ha + hb) :: unquote rest2
    | _, _ => '%' :: unquote (a :: b :: rest2)
  | c :: rest => c :: unquote rest

/-- The `.replace('+', ' ')` step of `parse_qsl`. -/
def plusToSpace (s : Str) : Str :=
  s.map (fun c => if c = '+' then ' ' else c)

/-- `urllib.parse.parse_qsl` with the default arguments used by the script
(`keep_blank_values=False`, `strict_parsing=False`, `separator='&'`): split
the query on `&`; skip empty pieces; skip pieces without `=`; skip pieces
whose value is empty; `+`-to-space and percent-decode both name and value. -/
def parse_qsl (qs : Str) : List (Str × Str) :=
  (qs.splitOn '&').filterMap fun nv =>
    if nv.isEmpty then none
    else
      match nv.findIdx? (fun c => c = '=') with
      | none => none
      | some i =>
        let value := nv.drop (i + 1)
        if value.isEmpty then none
        else some (unquote (plusToSpace (nv.take i)), unquote (plusToSpace value))

/-- One `parsed_result[name].append(value)` / `parsed_result[name] = [value]`
step of `parse_qs`, on an insertion-ordered association list modeling the
Python dict. -/
def dictUpd (d : List (Str × List Str)) (k : Str) (v : Str) : List (Str × List Str) :=
  if d.any (fun p => p.1 = k) then
    d.map (fun p => if p.1 = k then (p.1, p.2 ++ [v]) else p)
  else d ++ [(k, [v])]

/-- `urllib.parse.parse_qs`: group the `parse_qsl` pairs into a dict mapping
each name to its list of values in query order. -/
def parse_qs (qs : Str) : List (Str × List Str) :=
  (parse_qsl qs).foldl (fun d p => dictUpd d p.1 p.2) []

/-- Python dict subscript `d[k]` as an option (`none` models `KeyError`). -/
def dictGet (d : List (Str × List Str)) (k : Str) : Option (List Str) :=
  (d.find? (fun p => p.1 = k)).map (fun p => p.2)

/-- `urllib.parse.scheme_chars`. -/
def schemeChars : Str :=
  "abcdefghijklmnopqrstuvwxyzABCDEFGHIJKLMNOPQRSTUVWXYZ0123456789+-.".toList

/-- Python `str.lower` on the ASCII fragment (`Char.toLower` lowercases
exactly `A`-`Z`). -/
def lowerStr (s : Str) : Str := s.map Char.toLower

/-- Index of the last occurrence of `c` (Python `str.rfind`), if any. -/
def rfindIdx (l : Str) (c : Char) : Option Nat :=
  (l.reverse.findIdx? (fun x => x = c)).map (fun j => l.length - 1 - j)

/-- Index of the first occurrence satisfying `p` at or after `start`
(Python `str.find(c, start)`), if any. -/
def findIdxFrom (l : Str) (p : Char → Bool) (start : Nat) : Option Nat :=
  ((l.drop start).findIdx? p).map (fun j => j + start)

/-- `_splitnetloc(url, 2)`: the netloc runs from index 2 up to the first
`/`, `?`, or `#`; the remainder (including the delimiter) is the rest. -/
def splitnetloc (url : Str) : Str × Str :=
  let rest := url.drop 2
  match rest.findIdx? (fun c => c = '/' ∨ c = '?' ∨ c = '#') with
  | none => (rest, [])
  | some i => (rest.take i, rest.drop i)

/-- The WHATWG lstrip of C0 controls and space applied by `urlsplit`. -/
def lstripC0 (url : Str) : Str := url.dropWhile (fun c => c.toNat ≤ 32)

/-- Removal of the unsafe bytes tab, CR, LF applied by `urlsplit`. -/
def removeUnsafeBytes (url : Str) : Str :=
  url.filter (fun c => ¬(c = '\t' ∨ c = '\r' ∨ c = '\n'))

structure SplitResult where
  scheme : Str
  netloc : Str
  path : Str
  query : Str
  fragment : Str
deriving DecidableEq

/-- `urllib.parse.urlsplit` with `allow_fragments=True`: strip/clean the url,
split off a `scheme:` prefix when the part before the first `:` is a
non-empty run of scheme characters starting with an ASCII letter, consume a
`//netloc`, then split off the fragment at the first `#` and the query at the
first `?`.  Bracketed netlocs are mapped to `ValueError` (see the section
comment). -/
def urlsplitE (url0 : Str) : Except PyExn SplitResult :=
  let url1 := removeUnsafeBytes (lstripC0 url0)
  let sp :=
    match url1.findIdx? (fun c => c = ':') with
    | some i =>
      if 0 < i ∧ (url1.headD ' ').isAlpha ∧ (url1.take i).all (fun c => schemeChars.contains c) then
        (lowerStr (url1.take i), url1.drop (i + 1))
      else (([] : Str), url1)
    | none => (([] : Str), url1)
  let scheme := sp.1
  let urlA := sp.2
  let np :=
    if urlA.take 2 = ['/', '/'] then splitnetloc urlA
    else (([] : Str), urlA)
  let netloc := np.1
  let urlB := np.2
  if netloc.contains '[' ∨ netloc.contains ']' then Except.error PyExn.valueError
  else
    let fp :=
      match urlB.findIdx? (fun c => c = '#') with
      | some i => (urlB.take i, urlB.drop (i + 1))
      | none => (urlB, ([] : Str))
    let qp :=
      match fp.1.findIdx? (fun c => c = '?') with
      | some i => (fp.1.take i, fp.1.drop (i + 1))
      | none => (fp.1, ([] : Str))
    Except.ok ⟨scheme, netloc, qp.1, qp.2, fp.2⟩

/-- `urllib.parse.uses_params`. -/
def uses_params : List Str :=
  [[], "ftp".toList, "hdl".toList, "prospero".toList, "http".toList,
   "imap".toList, "https".toList, "shttp".toList, "rtsp".toList,
   "rtspu".toList, "sip".toList, "sips".toList, "mms".toList,
   "sftp".toList, "tel".toList]

/-- `urllib.parse._splitparams`: split the path at the first `;` after the
last `/` (or the first `;` at all when there is no `/`). -/
def splitparams (url : Str) : Str × Str :=
  match rfindIdx url '/' with
  | some s =>
    match findIdxFrom url (fun c => c = ';') s with
    | some i => (url.take i, url.drop (i + 1))
    | none => (url, [])
  | none =>
    match url.findIdx? (fun c => c = ';') with
    | some i => (url.take i, url.drop (i + 1))
    | none => (url, [])

structure ParseResult where
  scheme : Str
  netloc : Str
  path : Str
  params : Str
  query : Str
  fragment : Str
deriving DecidableEq

/-- `urllib.parse.urlparse`: `urlsplit` plus the params split when the scheme
uses params and the path contains a `;`. -/
def urlparseE (url : Str) : Except PyExn ParseResult :=
  match urlsplitE url with
  | Except.error e => Except.error e
  | Except.ok sp =>
    if uses_params.contains sp.scheme ∧ sp.path.contains ';' then
      let pr := splitparams sp.path
      Except.ok ⟨sp.scheme, sp.netloc, pr.1, pr.2, sp.query, sp.fragment⟩
    else Except.ok ⟨sp.scheme, sp.netloc, sp.path, [], sp.query, sp.fragment⟩

/-- The `hostname` property of a parse result: the part of the netloc after
the last `@` and before the first `:`, lowercased; `None` when empty.
(The bracketed-host branch of `_hostinfo` is unreachable here because
`urlsplitE` rejects bracketed netlocs.) -/
def ParseResult.hostname (p : ParseResult) : Option Str :=
  let afterAt :=
    match rfindIdx p.netloc '@' with
    | some i => p.netloc.drop (i + 1)
    | none => p.netloc
  let host :=
    match afterAt.findIdx? (fun c => c = ':') with
    | some i => afterAt.take i
    | none => afterAt
  if host.isEmpty then none else some (lowerStr host)

/-- `extract_video_id` (src/youtube_transcript_app.py lines 55-63).  Note
that on a recognized watch-form host with path `/watch` but no `v` parameter,
the subscript `parse_qs(parsed_url.query)['v']` raises `KeyError`, modeled as
`Except.error PyExn.keyError`.  (The `some []` branch is unreachable:
`parse_qs` never stores an empty value list; Python would raise `IndexError`
there.) -/
def extract_video_id (url : Str) : Except PyExn (Option Str) :=
  match urlparseE url with
  | Except.error e => Except.error e
  | Except.ok p =>
    if p.hostname = some "www.youtube.com".toList ∨ p.hostname = some "youtube.com".toList then
      if p.path = "/watch".toList then
        match dictGet (parse_qs p.query) "v".toList with
        | some (v0 :: _) => Except.ok (some v0)
        | some [] => Except.error PyExn.keyError
        | none => Except.error PyExn.keyError
      else Except.ok none
    else if p.hostname = some "youtu.be".toList then
      Except.ok (some (p.path.drop 1))
    else Except.ok none

/-! ## Dictionary lemmas: `parse_qs(q)[k]` lists the values of `k` in query
order, so `parse_qs(q)['v'][0]` is the value of the first non-blank `v`
pair of the query string. -/

theorem list_find?_eq_filter_head? {α : Type} (p : α → Bool) :
    ∀ l : List α, l.find? p = (l.filter p).head? := by
  intro l
  induction l with
  | nil => rfl
  | cons a t ih =>
    by_cases h : p a = true
    · rw [List.find?_cons_of_pos _ h, List.filter_cons_of_pos h, List.head?_cons]
    · rw [List.find?_cons_of_neg _ h, List.filter_cons_of_neg h, ih]

theorem dictGet_cons (x : Str) (xs : List Str) (t : List (Str × List Str)) (k : Str) :
    dictGet ((x, xs) :: t) k = if x = k then some xs else dictGet t k := by
  unfold dictGet
  by_cases h : x = k
  · rw [List.find?_cons_of_pos _ (by simpa using h), if_pos h]
    rfl
  · rw [List.find?_cons_of_neg _ (by simpa using h), if_neg h]

theorem dictGet_map_upd (a : Str) (v : Str) (k : Str) :
    ∀ d : List (Str × List Str),
      dictGet (d.map (fun p => if p.1 = a then (p.1, p.2 ++ [v]) else p)) k =
        if k = a then (dictGet d k).map (fun vs => vs ++ [v]) else dictGet d k := by
  intro d
  induction d with
  | nil => by_cases h : k = a <;> simp [dictGet, h]
  | cons q t ih =>
    obtain ⟨x, xs⟩ := q
    simp only [List.map_cons]
    by_cases hxa : x = a <;> by_cases hxk : x = k
    · have hka : k = a := hxk ▸ hxa
      simp [dictGet_cons, hxa, hxk, hka]
    · have hak : ¬(a = k) := fun h => hxk (hxa.trans h)
      have hka : ¬(k = a) := fun h => hak h.symm
      simp [dictGet_cons, hxa, hxk, hak, hka, ih]
    · have hka : ¬(k = a) := fun h => hxa (hxk.trans h)
      simp [dictGet_cons, hxa, hxk, hka]
    · by_cases hka : k = a
      · subst hka
        simp [dictGet_cons, hxa, hxk, ih]
      · simp [dictGet_cons, hxa, hxk, hka, ih]

theorem dictGet_append_single (a : Str) (v : Str) (k : Str) :
    ∀ d : List (Str × List Str),
      dictGet (d ++ [(a, [v])]) k =
        match dictGet d k with
        | some vs => some vs
        | none => if k = a then some [v] else none := by
  intro d
  induction d with
  | nil =>
    simp only [List.nil_append]
    by_cases h : a = k
    · simp [dictGet_cons, dictGet, h]
    · have h2 : ¬(k = a) := fun hh => h hh.symm
      simp [dictGet_cons, dictGet, h, h2]
  | cons q t ih =>
    obtain ⟨x, xs⟩ := q
    simp only [List.cons_append]
    by_cases hxk : x = k
    · simp [dictGet_cons, hxk]
    · simp [dictGet_cons, hxk, ih]

theorem dictGet_any_isSome (k : Str) :
    ∀ d : List (Str × List Str), d.any (fun p => p.1 = k) = true → (dictGet d k).isSome := by
  intro d
  induction d with
  | nil => simp
  | cons q t ih =>
    obtain ⟨x, xs⟩ := q
    intro h
    by_cases hxk : x = k
    · simp [dictGet_cons, hxk]
    · simp only [List.any_cons, Bool.or_eq_true, decide_eq_true_eq] at h
      rcases h with h | h
      · exact absurd h hxk
      · rw [dictGet_cons, if_neg hxk]
        exact ih h

theorem dictGet_some_any (d : List (Str × List Str)) (k : Str) (vs : List Str)
    (ho : dictGet d k = some vs) : d.any (fun p => p.1 = k) = true := by
  rcases hf : d.find? (fun p => p.1 = k) with _ | q
  · rw [dictGet, hf] at ho; simp at ho
  · have hq := List.find?_some hf
    have hmem := List.mem_of_find?_eq_some hf
    simp only [List.any_eq_true]
    exact ⟨q, hmem, hq⟩

theorem dictGet_dictUpd (d : List (Str × List Str)) (a : Str) (v : Str) (k : Str) :
    dictGet (dictUpd d a v) k =
      if k = a then
        match dictGet d k with
        | none => some [v]
        | some vs => some (vs ++ [v])
      else dictGet d k := by
  unfold dictUpd
  by_cases hany : d.any (fun p => p.1 = a) = true
  · rw [if_pos hany, dictGet_map_upd]
    by_cases hka : k = a
    · subst hka
      rw [if_pos rfl, if_pos rfl]
      have hsome := dictGet_any_isSome k d hany
      rcases ho : dictGet d k with _ | vs
      · rw [ho] at hsome; simp at hsome
      · simp [ho]
    · rw [if_neg hka, if_neg hka]
  · rw [if_neg hany, dictGet_append_single]
    by_cases hka : k = a
    · subst hka
      rcases ho : dictGet d k with _ | vs
      · simp [ho]
      · exact absurd (dictGet_some_any d k vs ho) hany
    · rw [if_neg hka]
      rcases ho : dictGet d k with _ | vs
      · simp [ho, hka]
      · simp [ho, hka]

theorem dictGet_foldl (k : Str) :
    ∀ (l : List (Str × Str)) (d : List (Str × List Str)),
      dictGet (l.foldl (fun dd p => dictUpd dd p.1 p.2) d) k =
        match dictGet d k, (l.filter (fun p => p.1 = k)).map Prod.snd with
        | none, [] => none
        | none, vs => some vs
        | some vs0, vs => some (vs0 ++ vs) := by
  intro l
  induction l with
  | nil =>
    intro d
    rcases ho : dictGet d k with _ | vs0 <;> simp [ho]
  | cons p t ih =>
    intro d
    simp only [List.foldl_cons]
    rw [ih (dictUpd d p.1 p.2), dictGet_dictUpd]
    by_cases hp : p.1 = k
    · have hk : k = p.1 := hp.symm
      rw [if_pos hk]
      rcases ho : dictGet d k with _ | vs0
      · simp [ho, List.filter_cons, hp]
      · simp [ho, List.filter_cons, hp]
    · have hk : ¬(k = p.1) := fun hh => hp hh.symm
      rw [if_neg hk]
      rcases ho : dictGet d k with _ | vs0 <;> simp [ho, List.filter_cons, hp]

theorem dictGet_parse_qs (qs : Str) (k : Str) :
    dictGet (parse_qs qs) k =
      match (parse_qsl qs).filter (fun p => p.1 = k) with
      | [] => none
      | fs => some (fs.map Prod.snd) := by
  unfold parse_qs
  rw [dictGet_foldl]
  rcases hf : (parse_qsl qs).filter (fun p => p.1 = k) with _ | ⟨q, fs⟩ <;>
    simp [dictGet, hf]

/-- Case-dispatch form of `extract_video_id` when the URL parses. -/
theorem extract_video_id_ok (url : Str) (p : ParseResult)
    (hp : urlparseE url = Except.ok p) :
    extract_video_id url =
      (if p.hostname = some "www.youtube.com".toList ∨ p.hostname = some "youtube.com".toList then
        (if p.path = "/watch".toList then
          match dictGet (parse_qs p.query) "v".toList with
          | some (v0 :: _) => Except.ok (some v0)
          | some [] => Except.error PyExn.keyError
          | none => Except.error PyExn.keyError
        else Except.ok none)
      else if p.hostname = some "youtu.be".toList then Except.ok (some (p.path.drop 1))
      else Except.ok none) := by
  unfold extract_video_id
  rw [hp]

/-- Claim C2: for every URL whose host is a recognized watch-form host with
path `/watch` and a `v` query parameter, `extract_video_id` returns exactly
that parameter's first value; for every URL whose host is the short-link
host, it returns the path minus the leading slash; for every URL with any
other host or path shape, it returns `None`. -/
theorem claim_C2 (url : Str) (p : ParseResult) (hp : urlparseE url = Except.ok p) :
    ((p.hostname = some "www.youtube.com".toList ∨ p.hostname = some "youtube.com".toList) →
      p.path = "/watch".toList →
      ∀ pr, (parse_qsl p.query).find? (fun q => q.1 = "v".toList) = some pr →
        extract_video_id url = Except.ok (some pr.2)) ∧
    (p.hostname = some "youtu.be".toList →
      extract_video_id url = Except.ok (some (p.path.drop 1))) ∧
    (((p.hostname ≠ some "www.youtube.com".toList ∧ p.hostname ≠ some "youtube.com".toList ∧
        p.hostname ≠ some "youtu.be".toList) ∨
      ((p.hostname = some "www.youtube.com".toList ∨ p.hostname = some "youtube.com".toList) ∧
        p.path ≠ "/watch".toList)) →
      extract_video_id url = Except.ok none) := by
  rw [extract_video_id_ok url p hp]
  refine ⟨?_, ?_, ?_⟩
  · intro hh hpath pr hfind
    rw [if_pos hh, if_pos hpath, dictGet_parse_qs]
    rw [list_find?_eq_filter_head?] at hfind
    rcases hfil : (parse_qsl p.query).filter (fun q => q.1 = "v".toList) with _ | ⟨pr0, fs⟩
    · rw [hfil] at hfind; simp at hfind
    · rw [hfil] at hfind
      simp only [List.head?_cons, Option.some.injEq] at hfind
      subst hfind
      rw [hfil]
      simp
  · intro hyb
    have hno : ¬(p.hostname = some "www.youtube.com".toList ∨ p.hostname = some "youtube.com".toList) := by
      rw [hyb]; decide
    rw [if_neg hno, if_pos hyb]
  · intro hother
    rcases hother with ⟨h1, h2, h3⟩ | ⟨hh, hpath⟩
    · have hno : ¬(p.hostname = some "www.youtube.com".toList ∨ p.hostname = some "youtube.com".toList) :=
        fun hor => hor.elim h1 h2
      rw [if_neg hno, if_neg h3]
    · rw [if_pos hh, if_neg hpath]

theorem claim_C2_witness :
    (urlparseE "https://www.youtube.com/watch?t=1&v=abc123&v=zzz".toList =
      Except.ok
        { scheme := "https".toList, netloc := "www.youtube.com".toList,
          path := "/watch".toList, params := [],
          query := "t=1&v=abc123&v=zzz".toList, fragment := [] }) ∧
    extract_video_id "https://www.youtube.com/watch?t=1&v=abc123&v=zzz".toList =
      Except.ok (some "abc123".toList) := by
  constructor
  · decide
  · exact
      (claim_C2 "https://www.youtube.com/watch?t=1&v=abc123&v=zzz".toList
        { scheme := "https".toList, netloc := "www.youtube.com".toList,
          path := "/watch".toList, params := [],
          query := "t=1&v=abc123&v=zzz".toList, fragment := [] }
        (by decide)).1 (by decide) (by decide)
        ("v".toList, "abc123".toList) (by decide)

/-- Claim C3 (code evaluation at the failing input): for a watch-form URL
whose query has no `v` parameter, `extract_video_id` raises `KeyError`
(`parse_qs(parsed_url.query)['v']` on a dict without the key) instead of
returning `None` as the spec states. -/
theorem claim_C3_keyError :
    extract_video_id "https://www.youtube.com/watch".toList = Except.error PyExn.keyError ∧
    extract_video_id "https://www.youtube.com/watch?vid=1".toList = Except.error PyExn.keyError := by
  constructor <;> decide

/-! ## The main script (src/youtube_transcript_app.py lines 123-212)

The Streamlit UI and the external collaborators are opaque.  UI output is
recorded as a list of `Ev` values (in emission order); every invocation of an
external collaborator is recorded as a `Call` value (in call order).  The
collaborators themselves are oracles in an `Env` record; an oracle returning
`Except.error e` models the corresponding Python call raising an exception
whose text is `e`. -/

/-- A Streamlit output primitive invoked by the script. -/
inductive Ev
  | err (msg : Str)
  | warn (msg : Str)
  | info (msg : Str)
  | success (msg : Str)
  | sub (msg : Str)
  | area (label : Str) (content : Str)
deriving DecidableEq

/-- The displayed text of an event (label and content for a text area). -/
def evText : Ev → Str
  | Ev.err m => m
  | Ev.warn m => m
  | Ev.info m => m
  | Ev.success m => m
  | Ev.sub m => m
  | Ev.area l c => l ++ c

/-- An invocation of an external collaborator. -/
inductive Call
  | listTranscripts (videoId : Str)
  | fetch (videoId : Str)
  | gtranslate (chunk : Str)
  | proc (cmd : List Str)
  | whisper (audioFile : Str)
deriving DecidableEq

/-- A transcript track returned by `YouTubeTranscriptApi.list_transcripts`:
its `language_code` and the outcome of `transcript.fetch()`, whose entries
are pairs of the `%.2f`-formatted start time (float formatting is opaque
here) and the entry text. -/
structure TranscriptTrack where
  language_code : Str
  fetchResult : Except Str (List (Str × Str))

/-- Result of `subprocess.Popen(...).communicate()` plus the exit code. -/
structure ProcOut where
  returncode : Int
  stdout : Str
  stderr : Str
deriving DecidableEq

/-- Result dict of `whisper_model.transcribe`: `result["text"]` and the
optional `"language"` key read via `result.get("language", "unknown")`. -/
structure WhisperOut where
  text : Str
  language : Option Str
deriving DecidableEq

/-- The oracle environment: one function per external collaborator, plus the
fresh temporary-directory name the OS hands to `tempfile.TemporaryDirectory`
and the filesystem query used after the download. -/
structure Env where
  captions : Str → Except Str (List TranscriptTrack)
  gtr : Str → Except Str Str
  run : List Str → Except Str ProcOut
  fileExists : Str → Bool
  whisper : Str → Except Str WhisperOut
  tmpdir : Str

/-- How the script run leaves the current request. -/
inductive ExitKind
  | normal
  | stopped
  | raised (e : PyExn)
deriving DecidableEq

/-! ### Translation loop (lines 152-165)

```
text_chunks = split_text(transcript_text)
translated_chunks = []
for chunk in text_chunks:
    translated_chunk = GoogleTranslator(source="auto", target="en").translate(chunk)
    translated_chunks.append(translated_chunk)
google_translation = " ".join(translated_chunks)
```
wrapped in `try: ... except Exception as ex: st.error(...)`. -/

/-- The `for chunk in text_chunks` loop: returns the chunks actually
submitted to the collaborator (in order) and either the list of per-chunk
translations or the first raised error. -/
def transLoop (gtr : Str → Except Str Str) : List Str → List Str × Except Str (List Str)
  | [] => ([], Except.ok [])
  | c :: cs =>
    match gtr c with
    | Except.error e => ([c], Except.error e)
    | Except.ok t =>
      let r := transLoop gtr cs
      (c :: r.1,
       match r.2 with
       | Except.ok ts => Except.ok (t :: ts)
       | Except.error e => Except.error e)

structure StageOut where
  events : List Ev
  calls : List Call
deriving DecidableEq

/-- The Google-translation stage (lines 151-165): chunk `text` with
`split_text(text)` (default width 1000), translate the chunks sequentially,
and on success display `" ".join(translated_chunks)`; a raised exception is
caught and displayed, and nothing else is shown. -/
def googleTranslateStage (gtr : Str → Except Str Str) (text : Str) : StageOut :=
  match transLoop gtr (split_text text 1000) with
  | (submitted, Except.ok parts) =>
    { events := [Ev.sub "Quick Translation (via Google)".toList,
                 Ev.area "Google Translated Text".toList (List.intercalate " ".toList parts)],
      calls := submitted.map Call.gtranslate }
  | (submitted, Except.error e) =>
    { events := [Ev.err ("Google translation error: ".toList ++ e)],
      calls := submitted.map Call.gtranslate }

/-! ### `download_audio` (lines 66-121) -/

/-- The target URL `f"https://www.youtube.com/watch?v={video_id}"`. -/
def watchUrl (video_id : Str) : Str :=
  "https://www.youtube.com/watch?v=".toList ++ video_id

/-- The spoofed User-Agent header of the primary invocation. -/
def uaHeader : Str :=
  "User-Agent:Mozilla/5.0 (Windows NT 10.0; Win64; x64) AppleWebKit/537.36 (KHTML, like Gecko) Chrome/122.0.0.0 Safari/537.36".toList

/-- The primary `yt-dlp` command (lines 68-80). -/
def primary_command (video_id output_path : Str) : List Str :=
  ["yt-dlp".toList, "--no-check-certificates".toList, "--extract-audio".toList,
   "--audio-format".toList, "mp3".toList, "--audio-quality".toList, "0".toList,
   "--output".toList, output_path, "--no-warnings".toList, "--quiet".toList,
   "--no-playlist".toList, "--add-header".toList, uaHeader, watchUrl video_id]

/-- The alternate `yt-dlp` command (lines 93-103). -/
def alt_command (video_id output_path : Str) : List Str :=
  ["yt-dlp".toList, "--extract-audio".toList, "--format".toList, "bestaudio".toList,
   "--audio-format".toList, "mp3".toList, "--output".toList, output_path,
   "--no-warnings".toList, "--quiet".toList, "--no-playlist".toList, watchUrl video_id]

structure DlOut where
  ok : Bool
  events : List Ev
  calls : List Call
deriving DecidableEq

/-- `download_audio` (lines 66-121): run the primary command; on a non-zero
exit run the alternate command once; if the (last) exit code is non-zero
display two errors (the second carrying the captured stderr) and return
`False`; any exception raised by the process machinery is caught by the
surrounding `try` and displayed, returning `False`.  No exception escapes. -/
def download_audio (run : List Str → Except Str ProcOut) (video_id output_path : Str) : DlOut :=
  let cmd1 := primary_command video_id output_path
  match run cmd1 with
  | Except.error e =>
    { ok := false,
      events := [Ev.err ("Error downloading audio: ".toList ++ e)],
      calls := [Call.proc cmd1] }
  | Except.ok r1 =>
    if r1.returncode ≠ 0 then
      let cmd2 := alt_command video_id output_path
      match run cmd2 with
      | Except.error e =>
        { ok := false,
          events := [Ev.err ("Error downloading audio: ".toList ++ e)],
          calls := [Call.proc cmd1, Call.proc cmd2] }
      | Except.ok r2 =>
        if r2.returncode ≠ 0 then
          { ok := false,
            events := [Ev.err "Could not download audio. YouTube might be blocking automated access.".toList,
                       Ev.err ("Error details: ".toList ++ r2.stderr)],
            calls := [Call.proc cmd1, Call.proc cmd2] }
        else
          { ok := true, events := [], calls := [Call.proc cmd1, Call.proc cmd2] }
    else
      { ok := true, events := [], calls := [Call.proc cmd1] }

/-! ### Whisper stage (lines 173-205) -/

/-- The binding state of the `transcript_language` variable when the Whisper
stage starts: unbound (captions succeeded with an empty track list, so the
`for` loop never ran), bound to `None` (the captions `except` branch), or
bound to a language code. -/
inductive TLang
  | unboundTL
  | noneTL
  | someTL (lang : Str)
deriving DecidableEq

structure BodyOut where
  events : List Ev
  calls : List Call
  exit : ExitKind
deriving DecidableEq

structure AudioOut where
  events : List Ev
  calls : List Call
  exit : ExitKind
  tempDirCreated : Bool
  tempDirExistsAfter : Bool
deriving DecidableEq

/-- `with tempfile.TemporaryDirectory() as temp_dir:` — the context manager
creates the directory on entry and removes it on exit along every path out
of the block body (normal fall-through, the `st.stop()` control exception,
or any other exception), which is what `__exit__` guarantees. -/
def withTemporaryDirectory (body : BodyOut) : AudioOut :=
  { events := body.events, calls := body.calls, exit := body.exit,
    tempDirCreated := true, tempDirExistsAfter := false }

/-- `os.path.join(temp_dir, f"{video_id}.mp3")` (POSIX join). -/
def audioPath (env : Env) (video_id : Str) : Str :=
  env.tmpdir ++ "/".toList ++ video_id ++ ".mp3".toList

/-- The body of the `with` block (lines 178-205): download the audio
(`st.stop()` on failure), check the file exists (`st.stop()` if not), then
transcribe with Whisper inside a `try` whose `except` displays the error.
When `transcript_language` is unbound, reading it at line 200 raises
`NameError`, which the same `except` catches after the subheader was already
displayed. -/
def whisperBody (env : Env) (video_id : Str) (tl : TLang) : BodyOut :=
  let audio_file := audioPath env video_id
  let dl := download_audio env.run video_id audio_file
  if dl.ok = false then
    { events := dl.events ++ [Ev.err "Failed to download audio. Please try again.".toList],
      calls := dl.calls, exit := ExitKind.stopped }
  else if env.fileExists audio_file = false then
    { events := dl.events ++ [Ev.err "Audio file was not downloaded successfully.".toList],
      calls := dl.calls, exit := ExitKind.stopped }
  else
    match env.whisper audio_file with
    | Except.error e =>
      { events := dl.events ++ [Ev.err ("Error during Whisper processing: ".toList ++ e)],
        calls := dl.calls ++ [Call.whisper audio_file], exit := ExitKind.normal }
    | Except.ok w =>
      let whisper_language := w.language.getD "unknown".toList
      match tl with
      | TLang.unboundTL =>
        { events := dl.events ++
            [Ev.sub "High-Quality Translation (via Whisper)".toList,
             Ev.err "Error during Whisper processing: name 'transcript_language' is not defined".toList],
          calls := dl.calls ++ [Call.whisper audio_file], exit := ExitKind.normal }
      | TLang.noneTL =>
        { events := dl.events ++
            [Ev.sub "High-Quality Translation (via Whisper)".toList,
             Ev.info ("Original language detected: ".toList ++ whisper_language),
             Ev.area "Whisper Translated Text".toList w.text],
          calls := dl.calls ++ [Call.whisper audio_file], exit := ExitKind.normal }
      | TLang.someTL lang =>
        if lang.isEmpty then
          { events := dl.events ++
              [Ev.sub "High-Quality Translation (via Whisper)".toList,
               Ev.info ("Original language detected: ".toList ++ whisper_language),
               Ev.area "Whisper Translated Text".toList w.text],
            calls := dl.calls ++ [Call.whisper audio_file], exit := ExitKind.normal }
        else
          { events := dl.events ++
              [Ev.sub "High-Quality Translation (via Whisper)".toList,
               Ev.area "Whisper Translated Text".toList w.text],
            calls := dl.calls ++ [Call.whisper audio_file], exit := ExitKind.normal }

/-- Lines 175-205: the Whisper stage runs inside the temporary-directory
context manager. -/
def whisperStage (env : Env) (video_id : Str) (tl : TLang) : AudioOut :=
  withTemporaryDirectory (whisperBody env video_id tl)

/-! ### Captions stage (lines 136-171) -/

structure CapOut where
  events : List Ev
  calls : List Call
  tl : TLang
deriving DecidableEq

/-- Lines 136-171: list the transcript tracks, process only the first one
(the loop ends in `break`), displaying the original transcript and — when
translation is requested and the track language is not English — the Google
translation; any exception from `list_transcripts` or `fetch` is caught by
the inner `except`, which warns and binds `transcript_language = None`. -/
def captionsStage (env : Env) (video_id : Str) (translateFlag : Bool) : CapOut :=
  match env.captions video_id with
  | Except.error ex =>
    { events := [Ev.warn ("No YouTube transcript available: ".toList ++ ex)],
      calls := [Call.listTranscripts video_id], tl := TLang.noneTL }
  | Except.ok [] =>
    { events := [], calls := [Call.listTranscripts video_id], tl := TLang.unboundTL }
  | Except.ok (t :: _) =>
    match t.fetchResult with
    | Except.error ex =>
      { events := [Ev.warn ("No YouTube transcript available: ".toList ++ ex)],
        calls := [Call.listTranscripts video_id, Call.fetch video_id], tl := TLang.noneTL }
    | Except.ok entries =>
      let transcript_text :=
        List.intercalate "\n".toList (entries.map (fun en => en.1 ++ " - ".toList ++ en.2))
      let baseEvents :=
        [Ev.sub "Original Transcript".toList,
         Ev.info ("Language detected: ".toList ++ t.language_code),
         Ev.area "Original Text".toList transcript_text]
      if translateFlag = true ∧ t.language_code ≠ "en".toList then
        let g := googleTranslateStage env.gtr transcript_text
        { events := baseEvents ++ g.events,
          calls := [Call.listTranscripts video_id, Call.fetch video_id] ++ g.calls,
          tl := TLang.someTL t.language_code }
      else
        { events := baseEvents,
          calls := [Call.listTranscripts video_id, Call.fetch video_id],
          tl := TLang.someTL t.language_code }

/-! ### Top-level flow (lines 123-212) -/

structure Outcome where
  events : List Ev
  calls : List Call
  exit : ExitKind
  enteredAudioStage : Bool
  tempDirCreated : Bool
  tempDirExistsAfter : Bool
deriving DecidableEq

/-- Lines 134-205, the body of `if video_id:`: captions stage, then — only
when the translate checkbox is set — the Whisper stage.  (The outer
`except Exception` at line 207 is unreachable in the model: every
collaborator failure inside is already handled at its call site.) -/
def processVideo (env : Env) (video_id : Str) (translateFlag : Bool) : Outcome :=
  let cap := captionsStage env video_id translateFlag
  if translateFlag then
    let a := whisperStage env video_id cap.tl
    { events := cap.events ++ a.events, calls := cap.calls ++ a.calls, exit := a.exit,
      enteredAudioStage := true, tempDirCreated := a.tempDirCreated,
      tempDirExistsAfter := a.tempDirExistsAfter }
  else
    { events := cap.events, calls := cap.calls, exit := ExitKind.normal,
      enteredAudioStage := false, tempDirCreated := false, tempDirExistsAfter := false }

/-- The error message of the `else` branch at lines 211-212. -/
def invalidUrlMsg : Str :=
  "Invalid YouTube URL. Please check the URL and try again.".toList

/-- Lines 130-212: nothing at all happens unless `video_url` is truthy
(non-empty) and `whisper_model` is truthy (not the `None` failure sentinel);
then the id is extracted (an uncaught `KeyError`/`ValueError` from
`extract_video_id` aborts the script run before any collaborator call), the
empty or missing id shows the invalid-URL error, and otherwise the video is
processed. -/
def mainFlow (env : Env) (video_url : Str) (whisper_model : Option Unit)
    (translateFlag : Bool) : Outcome :=
  if video_url ≠ [] ∧ whisper_model.isSome then
    match extract_video_id video_url with
    | Except.error e =>
      { events := [], calls := [], exit := ExitKind.raised e,
        enteredAudioStage := false, tempDirCreated := false, tempDirExistsAfter := false }
    | Except.ok none =>
      { events := [Ev.err invalidUrlMsg], calls := [], exit := ExitKind.normal,
        enteredAudioStage := false, tempDirCreated := false, tempDirExistsAfter := false }
    | Except.ok (some v) =>
      if v ≠ [] then processVideo env v translateFlag
      else
        { events := [Ev.err invalidUrlMsg], calls := [], exit := ExitKind.normal,
          enteredAudioStage := false, tempDirCreated := false, tempDirExistsAfter := false }
  else
    { events := [], calls := [], exit := ExitKind.normal,
      enteredAudioStage := false, tempDirCreated := false, tempDirExistsAfter := false }

/-- `load_whisper_model` (lines 22-35): on a load failure the exception is
caught, two errors are shown, and `None` is returned (and cached by
`st.cache_resource` as the unavailability sentinel). -/
def load_whisper_model (loadResult : Except Str Unit) : Option Unit × List Ev :=
  match loadResult with
  | Except.ok _ => (some (), [Ev.success "Whisper model loaded successfully!".toList])
  | Except.error e =>
    (none, [Ev.err ("Error loading Whisper: ".toList ++ e),
            Ev.err "Please make sure you've installed Whisper and FFmpeg correctly.".toList])

/-! ## Claims C4 and C5: the translation loop -/

theorem transLoop_all_ok (f : Str → Str) :
    ∀ chunks, transLoop (fun c => Except.ok (f c)) chunks = (chunks, Except.ok (chunks.map f)) := by
  intro chunks
  induction chunks with
  | nil => rfl
  | cons c cs ih => simp [transLoop, ih]

theorem transLoop_fail (gtr : Str → Except Str Str) (e : Str) :
    ∀ (pre : List Str) (ck : Str) (post : List Str),
      (∀ c ∈ pre, ∃ t, gtr c = Except.ok t) → gtr ck = Except.error e →
      transLoop gtr (pre ++ ck :: post) = (pre ++ [ck], Except.error e) := by
  intro pre
  induction pre with
  | nil =>
    intro ck post _ hfail
    simp [transLoop, hfail]
  | cons c cs ih =>
    intro ck post hpre hfail
    obtain ⟨t, ht⟩ := hpre c (List.mem_cons_self c cs)
    simp [transLoop, ht,
      ih ck post (fun c' hc' => hpre c' (List.mem_cons_of_mem _ hc')) hfail]

/-- Claim C4: for a chunked translation of more than one chunk, if the
translation collaborator raises on chunk `k` (here: the chunk after the
all-successful prefix `pre`), the whole operation fails with the caught
exception displayed (carrying the underlying cause), no chunk beyond `k` is
submitted to the collaborator, and no translated result is displayed. -/
theorem claim_C4 (gtr : Str → Except Str Str) (text : Str) (pre post : List Str) (ck e : Str)
    (hm : 1 < (split_text text 1000).length)
    (hsplit : split_text text 1000 = pre ++ ck :: post)
    (hpre : ∀ c ∈ pre, ∃ t, gtr c = Except.ok t)
    (hfail : gtr ck = Except.error e) :
    (googleTranslateStage gtr text).events =
      [Ev.err ("Google translation error: ".toList ++ e)] ∧
    (googleTranslateStage gtr text).calls = (pre ++ [ck]).map Call.gtranslate := by
  unfold googleTranslateStage
  rw [hsplit, transLoop_fail gtr e pre ck post hpre hfail]
  exact ⟨rfl, rfl⟩

/-- The collaborator used by the C4 witness: accepts full-width chunks and
raises on the short final chunk. -/
def gtrC4 : Str → Except Str Str :=
  fun c => if c.length = 1000 then Except.ok c else Except.error "boom".toList

theorem split_text_witness_eq :
    split_text (List.replicate 1001 'a') 1000 = [List.replicate 1000 'a', ['a']] := by
  have hc1 : ¬((List.replicate 1001 'a').length = 0 ∨ 1000 = 0) := by
    simp only [List.length_replicate]
    omega
  have ht : (List.replicate 1001 'a').take 1000 = List.replicate 1000 'a' := by
    rw [List.take_replicate]
    norm_num
  have hd : (List.replicate 1001 'a').drop 1000 = ['a'] := by
    rw [List.drop_replicate]
    norm_num
  have hc2 : ¬((['a'] : Str).length = 0 ∨ 1000 = 0) := by
    simp only [List.length_singleton]
    omega
  have htk : (['a'] : Str).take 1000 = ['a'] := List.take_of_length_le (by simp)
  have hdr : (['a'] : Str).drop 1000 = [] := List.drop_eq_nil_of_le (by simp)
  have h3 : split_text (['a'] : Str) 1000 = [['a']] := by
    rw [split_text_cons _ _ hc2, htk, hdr,
      (split_text_eq_nil_iff [] 1000).mpr (Or.inl rfl)]
  rw [split_text_cons _ _ hc1, ht, hd, h3]

theorem claim_C4_witness :
    (googleTranslateStage gtrC4 (List.replicate 1001 'a')).events =
      [Ev.err ("Google translation error: ".toList ++ "boom".toList)] ∧
    (googleTranslateStage gtrC4 (List.replicate 1001 'a')).calls =
      ([List.replicate 1000 'a'] ++ [['a']]).map Call.gtranslate := by
  refine claim_C4 gtrC4 (List.replicate 1001 'a') [List.replicate 1000 'a'] [] ['a']
    "boom".toList (by rw [split_text_witness_eq]; norm_num)
    (by rw [split_text_witness_eq]; rfl) ?_ (by decide)
  intro c hc
  simp only [List.mem_singleton] at hc
  subst hc
  refine ⟨List.replicate 1000 'a', ?_⟩
  unfold gtrC4
  rw [if_pos (show (List.replicate 1000 'a').length = 1000 by
    simp only [List.length_replicate])]

/-- Claim C5: the translation step submits exactly the chunks produced by
`split_text` to the collaborator, one at a time in chunk order, and on
success displays the per-chunk translations joined with a single space; for
the empty string the chunk list is empty, zero remote calls are made, and
the displayed result is the empty string.  (A totally-successful
collaborator is modeled as the pure function `f`.) -/
theorem claim_C5 (f : Str → Str) (text : Str) :
    (googleTranslateStage (fun c => Except.ok (f c)) text).calls =
      (split_text text 1000).map Call.gtranslate ∧
    (googleTranslateStage (fun c => Except.ok (f c)) text).events =
      [Ev.sub "Quick Translation (via Google)".toList,
       Ev.area "Google Translated Text".toList
         (List.intercalate " ".toList ((split_text text 1000).map f))] ∧
    (text = [] →
      split_text text 1000 = [] ∧
      (googleTranslateStage (fun c => Except.ok (f c)) text).calls = [] ∧
      (googleTranslateStage (fun c => Except.ok (f c)) text).events =
        [Ev.sub "Quick Translation (via Google)".toList,
         Ev.area "Google Translated Text".toList []]) := by
  have hempty : text = [] → split_text text 1000 = [] := by
    intro ht
    rw [split_text_eq_nil_iff]
    exact Or.inl (by rw [ht]; rfl)
  unfold googleTranslateStage
  rw [transLoop_all_ok f (split_text text 1000)]
  refine ⟨rfl, rfl, ?_⟩
  intro ht
  refine ⟨hempty ht, ?_, ?_⟩ <;> simp [hempty ht, List.intercalate]

theorem claim_C5_witness :
    (googleTranslateStage (fun c => Except.ok c) []).calls = [] ∧
    (googleTranslateStage (fun c => Except.ok c) []).events =
      [Ev.sub "Quick Translation (via Google)".toList,
       Ev.area "Google Translated Text".toList []] := by
  have h := claim_C5 (fun c => c) []
  exact ⟨(h.2.2 rfl).2.1, (h.2.2 rfl).2.2⟩

/-! ## Claim C6: the two-tier download strategy -/

/-- Whether `needle` is a leading segment of the second argument. -/
def strStartsWith (needle : Str) : Str → Bool
  | hay =>
    match needle, hay with
    | [], _ => true
    | _ :: _, [] => false
    | a :: as, b :: bs => a = b && strStartsWith as bs

/-- Whether `needle` occurs contiguously inside `hay` (used to formalize a
message "carrying" the captured stderr text). -/
def strHasSub (needle : Str) : Str → Bool
  | [] => strStartsWith needle []
  | c :: t => strStartsWith needle (c :: t) || strHasSub needle t

/-- Claim C6 (amended): the primary invocation is always attempted first;
exactly one alternate invocation is attempted if and only if the primary
process exited non-zero; if both attempts exit non-zero the stage displays
an error carrying the captured stderr of the last attempt and stops; if the
expected output file is absent afterward the stage displays a fixed error
message (without the stderr text) and stops; and no exception escapes
(every oracle failure is caught, so the stage never ends in a raised
exception). -/
theorem claim_C6_amended (env : Env) (vid : Str) (tl : TLang) :
    (download_audio env.run vid (audioPath env vid)).calls.head? =
      some (Call.proc (primary_command vid (audioPath env vid))) ∧
    ((∃ r1, env.run (primary_command vid (audioPath env vid)) = Except.ok r1 ∧
        r1.returncode ≠ 0) →
      (download_audio env.run vid (audioPath env vid)).calls =
        [Call.proc (primary_command vid (audioPath env vid)),
         Call.proc (alt_command vid (audioPath env vid))]) ∧
    ((¬ ∃ r1, env.run (primary_command vid (audioPath env vid)) = Except.ok r1 ∧
        r1.returncode ≠ 0) →
      (download_audio env.run vid (audioPath env vid)).calls =
        [Call.proc (primary_command vid (audioPath env vid))]) ∧
    (∀ r1 r2, env.run (primary_command vid (audioPath env vid)) = Except.ok r1 →
      r1.returncode ≠ 0 →
      env.run (alt_command vid (audioPath env vid)) = Except.ok r2 →
      r2.returncode ≠ 0 →
      (download_audio env.run vid (audioPath env vid)).ok = false ∧
      Ev.err ("Error details: ".toList ++ r2.stderr) ∈ (whisperStage env vid tl).events ∧
      (whisperStage env vid tl).exit = ExitKind.stopped) ∧
    ((download_audio env.run vid (audioPath env vid)).ok = true →
      env.fileExists (audioPath env vid) = false →
      Ev.err "Audio file was not downloaded successfully.".toList ∈ (whisperStage env vid tl).events ∧
      (whisperStage env vid tl).exit = ExitKind.stopped) ∧
    (∀ e, (whisperStage env vid tl).exit ≠ ExitKind.raised e) := by
  refine ⟨?_, ?_, ?_, ?_, ?_, ?_⟩
  · rcases hr1 : env.run (primary_command vid (audioPath env vid)) with e | r1
    · simp [download_audio, hr1]
    · by_cases hrc : r1.returncode ≠ 0
      · rcases hr2 : env.run (alt_command vid (audioPath env vid)) with e | r2
        · simp [download_audio, hr1, hrc, hr2]
        · by_cases hrc2 : r2.returncode ≠ 0 <;>
            simp [download_audio, hr1, hrc, hr2, hrc2]
      · simp [download_audio, hr1, hrc]
  · rintro ⟨r1, hr1, hrc⟩
    rcases hr2 : env.run (alt_command vid (audioPath env vid)) with e | r2
    · simp [download_audio, hr1, hrc, hr2]
    · by_cases hrc2 : r2.returncode ≠ 0 <;>
        simp [download_audio, hr1, hrc, hr2, hrc2]
  · intro hno
    rcases hr1 : env.run (primary_command vid (audioPath env vid)) with e | r1
    · simp [download_audio, hr1]
    · have hrc : ¬(r1.returncode ≠ 0) := fun hcc => hno ⟨r1, hr1, hcc⟩
      simp [download_audio, hr1, hrc]
  · intro r1 r2 hr1 hrc1 hr2 hrc2
    have hdl : download_audio env.run vid (audioPath env vid) =
        { ok := false,
          events := [Ev.err "Could not download audio. YouTube might be blocking automated access.".toList,
                     Ev.err ("Error details: ".toList ++ r2.stderr)],
          calls := [Call.proc (primary_command vid (audioPath env vid)),
                    Call.proc (alt_command vid (audioPath env vid))] } := by
      simp [download_audio, hr1, hrc1, hr2, hrc2]
    refine ⟨by rw [hdl], ?_, ?_⟩ <;>
      simp [whisperStage, withTemporaryDirectory, whisperBody, hdl]
  · intro hok hfe
    constructor <;>
      simp [whisperStage, withTemporaryDirectory, whisperBody, hok, hfe]
  · intro e
    simp only [whisperStage, withTemporaryDirectory, whisperBody]
    rcases (download_audio env.run vid (audioPath env vid)).ok with _ | _
    · simp
    · by_cases hfe : env.fileExists (audioPath env vid) = false
      · simp [hfe]
      · simp only [Bool.not_eq_false] at hfe
        rcases hw : env.whisper (audioPath env vid) with ew | w
        · simp [hfe, hw]
        · rcases tl with _ | _ | lang
          · simp [hfe, hw]
          · simp [hfe, hw]
          · by_cases hl : lang.isEmpty <;> simp [hfe, hw, hl]

/-- Counterexample environment for C6: both downloader invocations exit 0
(with stderr text `BOOM`), but the expected output file is absent. -/
def envC6 : Env :=
  { captions := fun _ => Except.error "none".toList,
    gtr := fun c => Except.ok c,
    run := fun _ => Except.ok { returncode := 0, stdout := [], stderr := "BOOM".toList },
    fileExists := fun _ => false,
    whisper := fun _ => Except.ok { text := [], language := none },
    tmpdir := "/tmp/tmpx".toList }

/-- Counterexample to Claim C6 as stated: when the expected output file is
absent after a successful download invocation, the stage fails (stops), the
last attempt's captured stderr is `BOOM`, yet no displayed message carries
that stderr text — the file-absent error is a fixed message. -/
theorem claim_C6_counterexample :
    (whisperStage envC6 "abc".toList TLang.noneTL).exit = ExitKind.stopped ∧
    envC6.run (primary_command "abc".toList (audioPath envC6 "abc".toList)) =
      Except.ok { returncode := 0, stdout := [], stderr := "BOOM".toList } ∧
    (∀ e ∈ (whisperStage envC6 "abc".toList TLang.noneTL).events,
      strHasSub "BOOM".toList (evText e) = false) := by
  decide

/-- Environment for the C6 witness: the primary invocation exits 1, the
alternate also exits 1 with stderr `E2`. -/
def envC6w : Env :=
  { captions := fun _ => Except.error "none".toList,
    gtr := fun c => Except.ok c,
    run := fun cmd =>
      if cmd = primary_command "abc".toList "/tmp/tmpy/abc.mp3".toList then
        Except.ok { returncode := 1, stdout := [], stderr := "E1".toList }
      else
        Except.ok { returncode := 1, stdout := [], stderr := "E2".toList },
    fileExists := fun _ => false,
    whisper := fun _ => Except.ok { text := [], language := none },
    tmpdir := "/tmp/tmpy".toList }

theorem claim_C6_witness :
    (download_audio envC6w.run "abc".toList (audioPath envC6w "abc".toList)).ok = false ∧
    Ev.err ("Error details: ".toList ++ "E2".toList) ∈
      (whisperStage envC6w "abc".toList TLang.noneTL).events ∧
    (whisperStage envC6w "abc".toList TLang.noneTL).exit = ExitKind.stopped := by
  have h := (claim_C6_amended envC6w "abc".toList TLang.noneTL).2.2.2.1
    { returncode := 1, stdout := [], stderr := "E1".toList }
    { returncode := 1, stdout := [], stderr := "E2".toList }
    (by decide) (by decide) (by decide) (by decide)
  exact h

/-! ## Claims C7-C10: the orchestrating flow -/

/-- A benign concrete environment used by the witnesses below. -/
def testEnv : Env :=
  { captions := fun _ => Except.error "no transcripts".toList,
    gtr := fun c => Except.ok c,
    run := fun _ => Except.ok { returncode := 0, stdout := [], stderr := [] },
    fileExists := fun _ => true,
    whisper := fun _ => Except.ok { text := "hi".toList, language := some "en".toList },
    tmpdir := "/tmp/tmpabc".toList }

theorem processVideo_tempdir (env : Env) (v : Str) (flag : Bool) :
    (processVideo env v flag).enteredAudioStage = true →
    (processVideo env v flag).tempDirCreated = true ∧
    (processVideo env v flag).tempDirExistsAfter = false := by
  cases flag
  · simp [processVideo]
  · simp [processVideo, whisperStage, withTemporaryDirectory]

/-- Claim C7: for every request that enters the audio stage, the temporary
directory created for that request is created and no longer exists after the
request completes, on every exit path (the oracles in `env` range over all
download/filesystem/Whisper outcomes, and `st.stop` exits are included). -/
theorem claim_C7 (env : Env) (url : Str) (model : Option Unit) (flag : Bool)
    (h : (mainFlow env url model flag).enteredAudioStage = true) :
    (mainFlow env url model flag).tempDirCreated = true ∧
    (mainFlow env url model flag).tempDirExistsAfter = false := by
  by_cases hg : url ≠ [] ∧ model.isSome = true
  · rcases he : extract_video_id url with e | vopt
    · simp only [mainFlow] at h
      rw [if_pos hg] at h
      simp only [he] at h
      simp at h
    · rcases vopt with _ | v
      · simp only [mainFlow] at h
        rw [if_pos hg] at h
        simp only [he] at h
        simp at h
      · by_cases hv : v ≠ []
        · simp only [mainFlow] at h ⊢
          rw [if_pos hg] at h ⊢
          simp only [he] at h ⊢
          rw [if_pos hv] at h ⊢
          exact processVideo_tempdir env v flag h
        · simp only [mainFlow] at h
          rw [if_pos hg] at h
          simp only [he] at h
          rw [if_neg hv] at h
          simp at h
  · simp only [mainFlow] at h
    rw [if_neg hg] at h
    simp at h

theorem claim_C7_witness :
    (mainFlow testEnv "https://youtu.be/abc".toList (some ()) true).enteredAudioStage = true ∧
    (mainFlow testEnv "https://youtu.be/abc".toList (some ()) true).tempDirCreated = true ∧
    (mainFlow testEnv "https://youtu.be/abc".toList (some ()) true).tempDirExistsAfter = false :=
  ⟨by decide, claim_C7 testEnv "https://youtu.be/abc".toList (some ()) true (by decide)⟩

/-- What it means for a collaborator invocation to be keyed by video id `v`
(the downloader receives `v` through the watch URL, which is the final
command argument; the Whisper collaborator receives the audio path derived
from `v`). -/
def callUsesId (tmpdir : Str) (v : Str) : Call → Prop
  | Call.listTranscripts w => w = v
  | Call.fetch w => w = v
  | Call.gtranslate _ => True
  | Call.proc cmd => cmd.getLast? = some (watchUrl v)
  | Call.whisper pth => pth = tmpdir ++ "/".toList ++ v ++ ".mp3".toList

theorem primary_command_getLast (v out : Str) :
    (primary_command v out).getLast? = some (watchUrl v) := rfl

theorem alt_command_getLast (v out : Str) :
    (alt_command v out).getLast? = some (watchUrl v) := rfl

theorem download_audio_calls_shape (run : List Str → Except Str ProcOut) (v out : Str) :
    ∀ c ∈ (download_audio run v out).calls,
      c = Call.proc (primary_command v out) ∨ c = Call.proc (alt_command v out) := by
  intro c hc
  rcases hr1 : run (primary_command v out) with e | r1
  · simp [download_audio, hr1] at hc
    exact Or.inl hc
  · by_cases hrc : r1.returncode ≠ 0
    · rcases hr2 : run (alt_command v out) with e | r2
      · simp [download_audio, hr1, hrc, hr2] at hc
        tauto
      · by_cases hrc2 : r2.returncode ≠ 0 <;>
          · simp [download_audio, hr1, hrc, hr2, hrc2] at hc
            tauto
    · simp [download_audio, hr1, hrc] at hc
      exact Or.inl hc

theorem whisperBody_calls_sub (env : Env) (v : Str) (tl : TLang) :
    (whisperBody env v tl).calls = (download_audio env.run v (audioPath env v)).calls ∨
    (whisperBody env v tl).calls =
      (download_audio env.run v (audioPath env v)).calls ++
        [Call.whisper (audioPath env v)] := by
  simp only [whisperBody]
  split
  · left; rfl
  · split
    · left; rfl
    · split
      · right; rfl
      · split
        · right; rfl
        · right; rfl
        · split
          · right; rfl
          · right; rfl

theorem googleTranslateStage_calls_shape (gtr : Str → Except Str Str) (text : Str) :
    ∀ c ∈ (googleTranslateStage gtr text).calls, ∃ ch, c = Call.gtranslate ch := by
  intro c hc
  simp only [googleTranslateStage] at hc
  rcases h : transLoop gtr (split_text text 1000) with ⟨submitted, res⟩
  rw [h] at hc
  rcases res with e | parts <;>
    · simp at hc
      obtain ⟨ch, _, hch⟩ := hc
      exact ⟨ch, hch.symm⟩

theorem captionsStage_calls_shape (env : Env) (v : Str) (flag : Bool) :
    ∀ c ∈ (captionsStage env v flag).calls,
      c = Call.listTranscripts v ∨ c = Call.fetch v ∨ ∃ ch, c = Call.gtranslate ch := by
  intro c hc
  simp only [captionsStage] at hc
  split at hc
  · simp at hc
    exact Or.inl hc
  · simp at hc
    exact Or.inl hc
  · split at hc
    · simp at hc
      tauto
    · split at hc
      · simp at hc
        rcases hc with hc | hc | hc
        · exact Or.inl hc
        · exact Or.inr (Or.inl hc)
        · exact Or.inr (Or.inr (googleTranslateStage_calls_shape _ _ c hc))
      · simp at hc
        tauto

theorem captionsStage_calls_spec (env : Env) (v : Str) (flag : Bool) :
    ∀ c ∈ (captionsStage env v flag).calls, callUsesId env.tmpdir v c := by
  intro c hc
  rcases captionsStage_calls_shape env v flag c hc with h | h | ⟨ch, h⟩ <;> subst h
  · exact rfl
  · exact rfl
  · exact trivial

theorem whisperBody_calls_spec (env : Env) (v : Str) (tl : TLang) :
    ∀ c ∈ (whisperBody env v tl).calls, callUsesId env.tmpdir v c := by
  intro c hc
  have hdl : ∀ c ∈ (download_audio env.run v (audioPath env v)).calls,
      callUsesId env.tmpdir v c := by
    intro c hc
    rcases download_audio_calls_shape env.run v (audioPath env v) c hc with h | h <;> subst h
    · exact primary_command_getLast v (audioPath env v)
    · exact alt_command_getLast v (audioPath env v)
  rcases whisperBody_calls_sub env v tl with h | h
  · rw [h] at hc
    exact hdl c hc
  · rw [h] at hc
    rcases List.mem_append.mp hc with h2 | h2
    · exact hdl c h2
    · simp only [List.mem_singleton] at h2
      subst h2
      exact rfl

theorem processVideo_calls_spec (env : Env) (v : Str) (flag : Bool) :
    ∀ c ∈ (processVideo env v flag).calls, callUsesId env.tmpdir v c := by
  intro c hc
  cases flag
  · simp [processVideo] at hc
    exact captionsStage_calls_spec env v false c hc
  · simp [processVideo, whisperStage, withTemporaryDirectory] at hc
    rcases hc with hc | hc
    · exact captionsStage_calls_spec env v true c hc
    · exact whisperBody_calls_spec env v _ c hc

/-- Claim C8: whenever any collaborator is invoked at all, the extracted
video id is a non-empty string (the `if video_id:` truthiness guard filters
out both `None` and the empty string that `extract_video_id` can return for
a bare short-link path), and every collaborator invocation is keyed by that
id. -/
theorem claim_C8 (env : Env) (url : Str) (model : Option Unit) (flag : Bool)
    (hne : (mainFlow env url model flag).calls ≠ []) :
    ∃ v, extract_video_id url = Except.ok (some v) ∧ v ≠ [] ∧
      ∀ c ∈ (mainFlow env url model flag).calls, callUsesId env.tmpdir v c := by
  by_cases hg : url ≠ [] ∧ model.isSome = true
  · rcases he : extract_video_id url with e | vopt
    · exfalso
      apply hne
      simp only [mainFlow]
      rw [if_pos hg]
      simp only [he]
    · rcases vopt with _ | v
      · exfalso
        apply hne
        simp only [mainFlow]
        rw [if_pos hg]
        simp only [he]
      · by_cases hv : v ≠ []
        · refine ⟨v, rfl, hv, ?_⟩
          simp only [mainFlow]
          rw [if_pos hg]
          simp only [he]
          rw [if_pos hv]
          exact processVideo_calls_spec env v flag
        · exfalso
          apply hne
          simp only [mainFlow]
          rw [if_pos hg]
          simp only [he]
          rw [if_neg hv]
  · exfalso
    apply hne
    simp only [mainFlow]
    rw [if_neg hg]

theorem claim_C8_witness :
    (mainFlow testEnv "https://youtu.be/abc".toList (some ()) true).calls ≠ [] ∧
    ∃ v, extract_video_id "https://youtu.be/abc".toList = Except.ok (some v) ∧ v ≠ [] ∧
      ∀ c ∈ (mainFlow testEnv "https://youtu.be/abc".toList (some ()) true).calls,
        callUsesId testEnv.tmpdir v c :=
  ⟨by decide, claim_C8 testEnv "https://youtu.be/abc".toList (some ()) true (by decide)⟩

/-- Claim C9: when the speech-recognition model failed to load (the cached
`None` sentinel), the application performs no processing at all for any
submitted URL: no events are shown beyond the load errors, no collaborator
is invoked, and the run ends normally. -/
theorem claim_C9 (env : Env) (url : Str) (flag : Bool) (eLoad : Str) :
    (load_whisper_model (Except.error eLoad)).1 = none ∧
    (mainFlow env url (load_whisper_model (Except.error eLoad)).1 flag).events = [] ∧
    (mainFlow env url (load_whisper_model (Except.error eLoad)).1 flag).calls = [] ∧
    (mainFlow env url (load_whisper_model (Except.error eLoad)).1 flag).exit = ExitKind.normal := by
  refine ⟨rfl, ?_, ?_, ?_⟩ <;> simp [mainFlow, load_whisper_model]

theorem captionsStage_no_audio_calls (env : Env) (v : Str) (flag : Bool) :
    ∀ c ∈ (captionsStage env v flag).calls,
      (∀ cmd, c ≠ Call.proc cmd) ∧ (∀ pth, c ≠ Call.whisper pth) := by
  intro c hc
  rcases captionsStage_calls_shape env v flag c hc with h | h | ⟨ch, h⟩ <;> subst h <;>
    exact ⟨(fun cmd h => nomatch h), (fun pth h => nomatch h)⟩

/-- Claim C10: for a request with a valid (non-empty) video id and a loaded
model, the audio-download/speech-recognition stage runs if and only if the
translate flag is set — independent of the captions outcome, which is
quantified over via `env` — and when the flag is unset no downloader or
Whisper invocation occurs at all. -/
theorem claim_C10 (env : Env) (url v : Str) (flag : Bool)
    (hurl : url ≠ []) (hv : extract_video_id url = Except.ok (some v)) (hne : v ≠ []) :
    (mainFlow env url (some ()) flag).enteredAudioStage = flag ∧
    (flag = false → ∀ c ∈ (mainFlow env url (some ()) flag).calls,
      (∀ cmd, c ≠ Call.proc cmd) ∧ (∀ pth, c ≠ Call.whisper pth)) := by
  have hg : url ≠ [] ∧ (some () : Option Unit).isSome = true := ⟨hurl, rfl⟩
  constructor
  · simp only [mainFlow]
    rw [if_pos hg]
    simp only [hv]
    rw [if_pos hne]
    cases flag <;> simp [processVideo]
  · intro hflag
    subst hflag
    intro c hc
    simp only [mainFlow] at hc
    rw [if_pos hg] at hc
    simp only [hv] at hc
    rw [if_pos hne] at hc
    simp [processVideo] at hc
    exact captionsStage_no_audio_calls env v false c hc

theorem claim_C10_witness :
    (mainFlow testEnv "https://youtu.be/abc".toList (some ()) false).enteredAudioStage = false ∧
    ∀ c ∈ (mainFlow testEnv "https://youtu.be/abc".toList (some ()) false).calls,
      (∀ cmd, c ≠ Call.proc cmd) ∧ (∀ pth, c ≠ Call.whisper pth) := by
  have h := claim_C10 testEnv "https://youtu.be/abc".toList "abc".toList false
    (by decide) (by decide) (by decide)
  exact ⟨h.1, h.2 rfl⟩

end YTApp
